import Mathlib

/-!
Verification development for the RAG chat application backend.

The Python backend (FastAPI + MongoDB/Beanie + Pinecone + OpenAI) is shallowly
embedded: each embedded definition mirrors one Python function from
`backend/app/...`, with external collaborators (the langchain text splitter,
the OpenAI embedding/chat endpoints, the Pinecone index, the MongoDB driver)
passed in as explicit parameters.  Machine reals (similarity scores, wall-clock
seconds) are modelled as `Int`; wall-clock time is modelled by a logical clock
that advances at the `datetime.utcnow()` call sites inside the conversation
service, so that message timestamps are strictly increasing.
-/

namespace RagChat

/-! ## String helpers: Python `str.strip`, slicing and length

Python's `text.strip()` removes leading and trailing whitespace.  It is
embedded on the underlying character list. -/

/-- Leading-whitespace removal followed by trailing-whitespace removal,
on character lists: the embedding of Python `str.strip()`. -/
def stripChars (l : List Char) : List Char :=
  ((l.dropWhile Char.isWhitespace).reverse.dropWhile Char.isWhitespace).reverse

/-- Python `s.strip()`. -/
def pyStrip (s : String) : String := ⟨stripChars s.data⟩

/-- Python `s[:n]` (slicing keeps the first `n` characters). -/
def pyTake (s : String) (n : Nat) : String := ⟨s.data.take n⟩

/-! ## Text chunker (`backend/app/vector/text_chunker.py`)

`TextChunker` wraps langchain's `RecursiveCharacterTextSplitter`; the splitter
itself is an external library and is passed in as the parameter `splitText`.
The chunker's own logic (input validation, filtering of blank chunks,
enumeration, token estimate, metadata assembly) is embedded from the source. -/

/-- Document-level metadata handed to the chunker by `chunk_document`
(from `process_document`'s `document_metadata` dict).  The `file_type` and
`upload_timestamp` entries are carried along by the Python dict but never
consulted by any embedded operation, so they are elided here. -/
structure DocMeta where
  document_id : String
  user_id : String
  filename : String
deriving DecidableEq

/-- Per-chunk metadata dict built by `chunk_text` (`{**chunk_metadata,
"chunk_index": i, "total_chunks": n}`). -/
structure ChunkMeta where
  document_id : String
  user_id : String
  filename : String
  chunk_index : Nat
  total_chunks : Nat
deriving DecidableEq

/-- One element of `chunk_text`'s output list. -/
structure ChunkData where
  text : String
  chunk_index : Nat
  token_count : Nat
  metadata : ChunkMeta
deriving DecidableEq

/-- Embeds `TextChunker.count_tokens`: `len(text) // 4`. -/
def count_tokens (text : String) : Nat := text.length / 4

/-- Embeds `TextChunker.chunk_text`.  `splitText` is the external
`RecursiveCharacterTextSplitter.split_text`.  The Python guard
`if not text or not text.strip()` is equivalent to `text.strip() == ""`,
and the filter `if chunk and chunk.strip()` to `chunk.strip() != ""`. -/
def chunk_text (splitText : String → List String) (text : String)
    (md : DocMeta) : List ChunkData :=
  if pyStrip text = "" then []
  else
    let chunks := splitText text
    let valid := chunks.filter (fun c => pyStrip c != "")
    if valid.isEmpty then []
    else
      valid.enum.map (fun p =>
        { text := pyStrip p.2
          chunk_index := p.1
          token_count := count_tokens p.2
          metadata :=
            { document_id := md.document_id
              user_id := md.user_id
              filename := md.filename
              chunk_index := p.1
              total_chunks := valid.length } })

/-- Embeds `TextChunker.chunk_document`: forwards the document metadata into
`chunk_text`.  The extra bookkeeping keys it then adds to each chunk's
metadata dict (`chunk_id`, `is_first_chunk`, `is_last_chunk`) are never read
by any embedded operation and are elided. -/
def chunk_document (splitText : String → List String) (content : String)
    (md : DocMeta) : List ChunkData :=
  chunk_text splitText content md

/-! ## Embedding service (`backend/app/vector/openai_embedding_service.py`)

The OpenAI endpoint is the parameter `embed`; it is total, which models the
reachable/authenticated provider (provider outages are a separate failure
source outside these claims).  Python raises `ValueError`; errors are
modelled with `Except`. -/

/-- The error channel of the embedded services (Python exceptions carrying a
message; the services raise `ValueError`). -/
inductive PyError where
  | valueError (msg : String)
deriving DecidableEq

/-- The validity test applied to each input text:
`if text and text.strip()`. -/
def isValidText (t : String) : Bool := t != "" && pyStrip t != ""

/-- What a valid input becomes before being sent to the provider: truncated to
8000 characters when longer (`text = text[:8000]`), then stripped
(`valid_texts.append(text.strip())`). -/
def processedText (t : String) : String :=
  pyStrip (if t.length > 8000 then pyTake t 8000 else t)

/-- The `valid_texts` list assembled by the validation loop of
`generate_embeddings_batch`. -/
def validTexts (texts : List String) : List String :=
  texts.filterMap (fun t => if isValidText t then some (processedText t) else none)

/-- The sub-batching loop of `generate_embeddings_batch`: batches of 1000
inputs are sent to the provider in order.  With a total provider every
sub-batch succeeds, so the results concatenate in order.  The `fuel`
argument is only a structural termination measure (each iteration consumes
at least one element, so `ts.length` fuel always suffices). -/
def processBatchesAux (embed : String → List Int) :
    Nat → List String → List (List Int)
  | _, [] => []
  | 0, _ :: _ => []
  | fuel + 1, t :: rest =>
    ((t :: rest).take 1000).map embed ++
      processBatchesAux embed fuel ((t :: rest).drop 1000)

/-- The sub-batching loop, with enough fuel for its input. -/
def processBatches (embed : String → List Int) (ts : List String) :
    List (List Int) :=
  processBatchesAux embed ts.length ts

/-- Embeds `OpenAIEmbeddingService.generate_embeddings_batch`. -/
def generate_embeddings_batch (embed : String → List Int)
    (texts : List String) : Except PyError (List (List Int)) :=
  if texts.isEmpty then .error (.valueError "No texts provided for embedding")
  else
    let valid := validTexts texts
    if valid.isEmpty then .error (.valueError "No valid texts found for embedding")
    else
      let all := processBatches embed valid
      if all.isEmpty then .error (.valueError "No embeddings generated from any batch")
      else .ok all

/-! ## Vector index model and `PineconeClient.query_vectors`
(`backend/app/vector/pinecone_client.py`)

The Pinecone index is an external collaborator.  Its record store is modelled
as a list of vectors with metadata; per the §4.3 contract (and Pinecone's
documented behaviour, which the repository relies on for all isolation) a
query applies the metadata filter server-side and returns the `top_k` matches
ranked by cosine score, descending.  The similarity of a stored vector to the
current query embedding is abstracted by the parameter `score`. -/

/-- Metadata payload of one stored vector: the chunk metadata dict plus the
`"text"` entry added by `process_and_store_document`. -/
structure VecMetadata where
  document_id : String
  user_id : String
  filename : String
  chunk_index : Nat
  total_chunks : Nat
  text : String
deriving DecidableEq

/-- One record stored in the index. -/
structure IndexedVector where
  id : String
  values : List Int
  metadata : VecMetadata
deriving DecidableEq

/-- The metadata filter dicts this codebase passes to `query_vectors`:
an equality constraint on `user_id`, optionally a `{"$in": ...}` constraint
on `document_id`. -/
structure FilterDict where
  user_id : String
  document_id_in : Option (List String)
deriving DecidableEq

/-- Server-side filter semantics: a record matches when its `user_id` equals
the filter's and, when a `$in` constraint is present, its `document_id` is a
member of the given set. -/
def matchesFilter (m : VecMetadata) (f : FilterDict) : Bool :=
  m.user_id == f.user_id &&
    (match f.document_id_in with
     | none => true
     | some ids => ids.contains m.document_id)

/-- A formatted match returned by `PineconeClient.query_vectors`
(`{"id": ..., "score": ..., "metadata": ...}`). -/
structure QueryMatch where
  id : String
  score : Int
  metadata : VecMetadata
deriving DecidableEq

/-- Insert one match into a score-descending list. -/
def insertScoreDesc (x : QueryMatch) : List QueryMatch → List QueryMatch
  | [] => [x]
  | y :: ys => if x.score ≥ y.score then x :: y :: ys else y :: insertScoreDesc x ys

/-- Rank matches by score, descending (the index's native cosine ranking). -/
def sortScoreDesc : List QueryMatch → List QueryMatch
  | [] => []
  | x :: xs => insertScoreDesc x (sortScoreDesc xs)

/-- Embeds `settings.TOP_K_RESULTS` (`backend/app/core/config.py`). -/
def TOP_K_RESULTS : Nat := 6

/-- Python `top_k or settings.TOP_K_RESULTS`: `None` and `0` both fall back
to the configured default. -/
def topKOrDefault : Option Nat → Nat
  | none => TOP_K_RESULTS
  | some k => if k = 0 then TOP_K_RESULTS else k

/-- Embeds `PineconeClient.query_vectors`: the external index applies `filter`
server-side, ranks by score descending and returns the first `top_k`
matches, each formatted as `{id, score, metadata}`. -/
def query_vectors (index : List IndexedVector) (score : List Int → Int)
    (top_k : Option Nat) (filter : Option FilterDict) : List QueryMatch :=
  let candidates :=
    match filter with
    | none => index
    | some f => index.filter (fun r => matchesFilter r.metadata f)
  (sortScoreDesc (candidates.map
    (fun r => { id := r.id, score := score r.values, metadata := r.metadata }))).take
    (topKOrDefault top_k)

/-! ## Retrieval service (`backend/app/vector/vector_service.py`) -/

/-- A formatted search result of `search_similar_content` /
`search_document_scoped_content`: the dict
`{"id", "score", "text", "metadata"}`. -/
structure SearchResult where
  id : String
  score : Int
  text : String
  metadata : VecMetadata
deriving DecidableEq

/-- Shared result formatting of the two search operations
(`{"id": r["id"], "score": r["score"], "text": r["metadata"].get("text",""),
"metadata": r["metadata"]}`). -/
def formatSearchResults (results : List QueryMatch) : List SearchResult :=
  results.map (fun r =>
    { id := r.id, score := r.score, text := r.metadata.text, metadata := r.metadata })

/-- Embeds `VectorService.search_similar_content`: global search, filter
`{"user_id": user_id}`. -/
def search_similar_content (index : List IndexedVector) (score : List Int → Int)
    (user_id : String) (top_k : Option Nat) : List SearchResult :=
  let filter_dict : FilterDict := { user_id := user_id, document_id_in := none }
  formatSearchResults (query_vectors index score top_k (some filter_dict))

/-- Embeds `VectorService.search_document_scoped_content`: scoped search, filter
`{"user_id": user_id, "document_id": {"$in": document_ids}}`. -/
def search_document_scoped_content (index : List IndexedVector)
    (score : List Int → Int) (user_id : String) (document_ids : List String)
    (top_k : Option Nat) : List SearchResult :=
  let filter_dict : FilterDict :=
    { user_id := user_id, document_id_in := some document_ids }
  formatSearchResults (query_vectors index score top_k (some filter_dict))

/-! ## Ingestion: `VectorService.process_and_store_document` -/

/-- One vector prepared for upsert. -/
structure VectorData where
  id : String
  values : List Int
  metadata : VecMetadata
deriving DecidableEq

/-- The dict returned by `process_and_store_document`; on failure the Python
dict carries `error` and no `document_id`, hence the `Option` fields. -/
structure ProcessStoreResult where
  success : Bool
  error : Option String
  chunk_count : Nat
  pinecone_ids : List String
  document_id : Option String
deriving DecidableEq

/-- The failure dict of `process_and_store_document`'s `except` branch. -/
def processStoreFailure (msg : String) : ProcessStoreResult :=
  { success := false, error := some msg, chunk_count := 0, pinecone_ids := []
    document_id := none }

/-- Embeds `VectorService.process_and_store_document`.  `upsert` is the external
`PineconeClient.upsert_vectors` (returns success); exceptions raised by the
steps are caught by the enclosing `except` and turned into a failure dict. -/
def process_and_store_document (splitText : String → List String)
    (embed : String → List Int) (upsert : List VectorData → Bool)
    (content : String) (md : DocMeta) : ProcessStoreResult :=
  let chunks := chunk_document splitText content md
  if chunks.isEmpty then processStoreFailure "No chunks created from document"
  else
    let texts := chunks.map (fun c => c.text)
    match generate_embeddings_batch embed texts with
    | .error (.valueError msg) => processStoreFailure msg
    | .ok embeddings =>
      let pairs := (chunks.zip embeddings).enum
      let pinecone_ids :=
        pairs.map (fun p => md.document_id ++ "_chunk_" ++ toString p.1)
      let vectors : List VectorData :=
        pairs.map (fun p =>
          { id := md.document_id ++ "_chunk_" ++ toString p.1
            values := p.2.2
            metadata :=
              { document_id := p.2.1.metadata.document_id
                user_id := p.2.1.metadata.user_id
                filename := p.2.1.metadata.filename
                chunk_index := p.2.1.metadata.chunk_index
                total_chunks := p.2.1.metadata.total_chunks
                text := p.2.1.text } })
      if upsert vectors then
        { success := true, error := none, chunk_count := chunks.length
          pinecone_ids := pinecone_ids, document_id := some md.document_id }
      else processStoreFailure "Failed to store vectors in Pinecone"

/-! ## RAG query processing (`backend/app/chat/conversation_service.py`)

The source builds each citation with Python `dict.get`, so the embedding keeps
dict-access semantics: `dget` returns the value stored under a key of the
formatted result dict (`{"id", "score", "text", "metadata"}`) or of the
metadata dict, and `none` for any absent key — exactly Python's
`dict.get(key)` returning `None`. -/

/-- A Python value retrieved from one of the result dicts. -/
inductive RVal where
  | s : String → RVal
  | i : Int → RVal
  | m : VecMetadata → RVal
deriving DecidableEq

/-- Python `result.get(key)` on a formatted search result dict, whose keys
are exactly `id`, `score`, `text`, `metadata`. -/
def SearchResult.dget (r : SearchResult) (k : String) : Option RVal :=
  if k == "id" then some (.s r.id)
  else if k == "score" then some (.i r.score)
  else if k == "text" then some (.s r.text)
  else if k == "metadata" then some (.m r.metadata)
  else none

/-- Python `metadata.get(key)` on the stored metadata dict. -/
def VecMetadata.dget (m : VecMetadata) (k : String) : Option RVal :=
  if k == "document_id" then some (.s m.document_id)
  else if k == "user_id" then some (.s m.user_id)
  else if k == "filename" then some (.s m.filename)
  else if k == "chunk_index" then some (.i m.chunk_index)
  else if k == "total_chunks" then some (.i m.total_chunks)
  else if k == "text" then some (.s m.text)
  else none

/-- A source citation dict
`{"document_id": ..., "filename": ..., "chunk_index": ..., "score": ...}`;
each value can be `None`. -/
structure SourceCitation where
  document_id : Option RVal
  filename : Option RVal
  chunk_index : Option RVal
  score : Option RVal
deriving DecidableEq

/-- The citation list built by `_process_rag_query` (universal chat):
`result.get("document_id")` etc. are top-level lookups on the formatted
result dict. -/
def ragSources (results : List SearchResult) : List SourceCitation :=
  results.map (fun r =>
    { document_id := r.dget "document_id"
      filename := r.dget "filename"
      chunk_index := r.dget "chunk_index"
      score := r.dget "score" })

/-- The citation list built by `_process_document_rag_query` (document chat):
`result.get("metadata", {}).get("document_id")` etc. look inside the
metadata dict (and fall through to `None` when the default `{}` is hit). -/
def documentRagSources (results : List SearchResult) : List SourceCitation :=
  results.map (fun r =>
    { document_id :=
        match r.dget "metadata" with
        | some (.m md) => md.dget "document_id"
        | _ => none
      filename :=
        match r.dget "metadata" with
        | some (.m md) => md.dget "filename"
        | _ => none
      chunk_index :=
        match r.dget "metadata" with
        | some (.m md) => md.dget "chunk_index"
        | _ => none
      score := r.dget "score" })

/-- The context block both query processors build
(`context += f"\n{result['text']}\n"`). -/
def ragContext (results : List SearchResult) : String :=
  results.foldl (fun acc r => acc ++ "\n" ++ r.text ++ "\n") ""

/-- One entry of the conversation history handed to the LLM
(`{"role": ..., "content": ...}`). -/
structure HistEntry where
  role : String
  content : String
deriving DecidableEq

/-- Token usage reported by the LLM. -/
structure LLMUsage where
  prompt_tokens : Nat
  completion_tokens : Nat
  total_tokens : Nat
deriving DecidableEq

/-- The dict returned by `OpenAIChatService.generate_response`. -/
structure LLMResult where
  response : String
  usage : LLMUsage
deriving DecidableEq

/-- The dict returned by the two RAG query processors. -/
structure RagOutcome where
  response : String
  sources : List SourceCitation
  usage : LLMUsage
deriving DecidableEq

/-- Embeds `ConversationService._process_rag_query`.  `llm` is the external
`generate_response (query, context, history)`. -/
def process_rag_query (llm : String → String → List HistEntry → LLMResult)
    (index : List IndexedVector) (score : List Int → Int) (query : String)
    (user_id : String) (history : List HistEntry) : RagOutcome :=
  let search_results := search_similar_content index score user_id (some TOP_K_RESULTS)
  let context := ragContext search_results
  let sources := ragSources search_results
  let resp := llm query context history
  { response := resp.response, sources := sources, usage := resp.usage }

/-- Embeds `ConversationService._process_document_rag_query`. -/
def process_document_rag_query
    (llm : String → String → List HistEntry → LLMResult)
    (index : List IndexedVector) (score : List Int → Int) (query : String)
    (user_id : String) (history : List HistEntry)
    (document_ids : List String) : RagOutcome :=
  let search_results :=
    search_document_scoped_content index score user_id document_ids
      (some TOP_K_RESULTS)
  let context := ragContext search_results
  let sources := documentRagSources search_results
  let resp := llm query context history
  { response := resp.response, sources := sources, usage := resp.usage }

/-! ## Conversation manager (`backend/app/chat/conversation_service.py`)

MongoDB collections become lists kept in insertion order; `datetime.utcnow()`
becomes reads of a logical clock that the conversation operations advance at
their own `utcnow` call sites (so timestamps written by successive calls are
strictly increasing, as wall clock readings are).  Mongo-generated object ids
are passed in as explicit `newId` arguments. -/

/-- A persisted `Message` document.  `sources`, `response_time` and
`token_count` are `None` on user messages. -/
structure MessageRec where
  conversation_id : String
  role : String
  content : String
  timestamp : Nat
  sources : Option (List SourceCitation)
  response_time : Option Int
  token_count : Option Nat
deriving DecidableEq

/-- A persisted `Conversation` document.  `chat_type` / `selected_document_ids`
/ `document_names` are the extra fields the service stores for document chats
(universal conversations carry the schema default `"universal"`). -/
structure ConversationRec where
  id : String
  user_id : String
  title : String
  created_at : Nat
  updated_at : Nat
  last_message_at : Nat
  message_count : Nat
  is_active : Bool
  chat_type : String
  selected_document_ids : List String
  document_names : List String
deriving DecidableEq

/-- A persisted `UserAnalytics` document. -/
structure AnalyticsRec where
  user_id : String
  total_documents : Nat
  total_conversations : Nat
  total_messages : Nat
  total_queries : Nat
  storage_used : Nat
  last_activity : Nat
  updated_at : Nat
deriving DecidableEq

/-- The datastore state seen by the conversation service, plus the logical
clock. -/
structure ChatState where
  conversations : List ConversationRec
  messages : List MessageRec
  analytics : List AnalyticsRec
  clock : Nat
deriving DecidableEq

/-- The MongoDB operations `_update_user_analytics` performs, as a fallible
external collaborator: `find` is `UserAnalytics.find_one`, `save` is
`analytics.save()` returning the updated collection. -/
structure AnalyticsOps where
  find : List AnalyticsRec → String → Except PyError (Option AnalyticsRec)
  save : List AnalyticsRec → AnalyticsRec → Except PyError (List AnalyticsRec)

/-- The fresh `UserAnalytics` record built when `find_one` returns nothing. -/
def freshAnalytics (user_id : String) (clock : Nat) : AnalyticsRec :=
  { user_id := user_id, total_documents := 0, total_conversations := 0
    total_messages := 0, total_queries := 0, storage_used := 0
    last_activity := clock, updated_at := clock }

/-- The per-action counter update of `_update_user_analytics`
(`max(0, ...)` on deletion is `Nat` truncated subtraction here). -/
def applyAnalyticsAction (a : AnalyticsRec) (action : String) : AnalyticsRec :=
  if action = "conversation_created" then
    { a with total_conversations := a.total_conversations + 1 }
  else if action = "message_sent" then
    { a with total_messages := a.total_messages + 1 }
  else if action = "conversation_deleted" then
    { a with total_conversations := a.total_conversations - 1 }
  else a

/-- Embeds `last_activity` / `updated_at` stamping of `_update_user_analytics`. -/
def stampAnalytics (a : AnalyticsRec) (clock : Nat) : AnalyticsRec :=
  { a with last_activity := clock, updated_at := clock }

/-- Embeds `ConversationService._update_user_analytics`: the whole body sits in a
`try` whose `except` only logs, so a failing `find_one` or `save` leaves the
state unchanged and the function always returns. -/
def update_user_analytics (ops : AnalyticsOps) (st : ChatState)
    (user_id action : String) : ChatState :=
  match ops.find st.analytics user_id with
  | .error _ => st
  | .ok found =>
    match ops.save st.analytics
        (stampAnalytics
          (applyAnalyticsAction (found.getD (freshAnalytics user_id st.clock))
            action) st.clock) with
    | .error _ => st
    | .ok newAnalytics => { st with analytics := newAnalytics }

/-- Embeds `ConversationStartResponse`. -/
structure StartResponse where
  conversation_id : String
  title : String
  created_at : Nat
deriving DecidableEq

/-- Embeds `ConversationService.start_conversation`.  The date-stamped default title
(`f"Chat {datetime.now().strftime(...)}"`) is modelled from the clock. -/
def start_conversation (ops : AnalyticsOps) (st : ChatState) (user_id : String)
    (title : Option String) (newId : String) : ChatState × StartResponse :=
  let t := title.getD ("Chat " ++ toString st.clock)
  let conv : ConversationRec :=
    { id := newId, user_id := user_id, title := t, created_at := st.clock
      updated_at := st.clock, last_message_at := st.clock, message_count := 0
      is_active := true, chat_type := "universal", selected_document_ids := []
      document_names := [] }
  let st1 : ChatState :=
    { st with conversations := st.conversations ++ [conv], clock := st.clock + 1 }
  let st2 := update_user_analytics ops st1 user_id "conversation_created"
  (st2, { conversation_id := newId, title := t, created_at := conv.created_at })

/-- Embeds `ConversationService._get_conversation_history`: filter by conversation,
sort by timestamp descending, keep `limit`, reverse into chronological order,
project to `{"role", "content"}`. -/
def insertTsDesc (x : MessageRec) : List MessageRec → List MessageRec
  | [] => [x]
  | y :: ys => if x.timestamp ≥ y.timestamp then x :: y :: ys else y :: insertTsDesc x ys

/-- Sort messages by timestamp, descending (`.sort("-timestamp")`). -/
def sortTsDesc : List MessageRec → List MessageRec
  | [] => []
  | x :: xs => insertTsDesc x (sortTsDesc xs)

/-- Insert one message into a timestamp-ascending list. -/
def insertTsAsc (x : MessageRec) : List MessageRec → List MessageRec
  | [] => [x]
  | y :: ys => if x.timestamp ≤ y.timestamp then x :: y :: ys else y :: insertTsAsc x ys

/-- Sort messages by timestamp, ascending (`.sort("timestamp")`). -/
def sortTsAsc : List MessageRec → List MessageRec
  | [] => []
  | x :: xs => insertTsAsc x (sortTsAsc xs)

/-- Embeds `_get_conversation_history` (default `limit = 10`). -/
def get_conversation_history (msgs : List MessageRec) (conversation_id : String)
    (limit : Nat) : List HistEntry :=
  let filtered := msgs.filter (fun m => m.conversation_id == conversation_id)
  let recent := (sortTsDesc filtered).take limit
  let chronological := recent.reverse
  chronological.map (fun m => { role := m.role, content := m.content })

/-- The history assembled inside `send_message`: the user message has already
been inserted when `_get_conversation_history` runs (source lines 149-159). -/
def send_history (msgs : List MessageRec) (conversation_id : String)
    (userMsg : MessageRec) : List HistEntry :=
  get_conversation_history (msgs ++ [userMsg]) conversation_id 10

/-- Embeds `ChatQueryResponse`. -/
structure ChatQueryResponseM where
  message : String
  conversation_id : String
  sources : List SourceCitation
  response_time : Int
  token_count : Nat
  timestamp : Nat
deriving DecidableEq

/-- Embeds `ConversationService.send_message`.  The `utcnow` call sites each advance
the clock by one; `Conversation.get` is lookup by id, `conversation.save()`
replaces the record with the same id. -/
def send_message (llm : String → String → List HistEntry → LLMResult)
    (index : List IndexedVector) (score : List Int → Int) (ops : AnalyticsOps)
    (st : ChatState) (conversation_id : String) (user_message : String)
    (user_id : String) : Except PyError (ChatState × ChatQueryResponseM) :=
  let start_time := st.clock
  match st.conversations.find? (fun c => c.id == conversation_id) with
  | none => .error (.valueError "Conversation not found or access denied")
  | some conv =>
    if conv.user_id != user_id then
      .error (.valueError "Conversation not found or access denied")
    else
      let userTs := start_time + 1
      let userMsg : MessageRec :=
        { conversation_id := conversation_id, role := "user"
          content := user_message, timestamp := userTs, sources := none
          response_time := none, token_count := none }
      let msgs1 := st.messages ++ [userMsg]
      let history := send_history st.messages conversation_id userMsg
      let rag :=
        if conv.chat_type == "document" && !conv.selected_document_ids.isEmpty then
          process_document_rag_query llm index score user_message user_id history
            conv.selected_document_ids
        else
          process_rag_query llm index score user_message user_id history
      let endTs := userTs + 1
      let response_time : Int := (endTs : Int) - (start_time : Int)
      let asstTs := endTs + 1
      let assistantMsg : MessageRec :=
        { conversation_id := conversation_id, role := "assistant"
          content := rag.response, timestamp := asstTs
          sources := some rag.sources, response_time := some response_time
          token_count := some rag.usage.total_tokens }
      let msgs2 := msgs1 ++ [assistantMsg]
      let lastMsgTs := asstTs + 1
      let updTs := lastMsgTs + 1
      let conv2 :=
        { conv with
          message_count := conv.message_count + 1
          last_message_at := lastMsgTs
          updated_at := updTs }
      let convs2 := st.conversations.map (fun c => if c.id == conv.id then conv2 else c)
      let st1 : ChatState :=
        { conversations := convs2, messages := msgs2, analytics := st.analytics
          clock := updTs + 1 }
      let st2 := update_user_analytics ops st1 user_id "message_sent"
      .ok (st2,
        { message := rag.response, conversation_id := conversation_id
          sources := rag.sources, response_time := response_time
          token_count := rag.usage.total_tokens, timestamp := st2.clock })

/-- Embeds `ConversationDetailResponse` (message responses carry the same fields as
the stored messages). -/
structure ConversationDetail where
  id : String
  title : String
  user_id : String
  created_at : Nat
  updated_at : Nat
  last_message_at : Nat
  message_count : Nat
  is_active : Bool
  messages : List MessageRec
deriving DecidableEq

/-- Embeds `ConversationService.get_conversation`: note the two distinct error
messages (absence vs. ownership mismatch). -/
def get_conversation (st : ChatState) (conversation_id user_id : String) :
    Except PyError ConversationDetail :=
  match st.conversations.find? (fun c => c.id == conversation_id) with
  | none => .error (.valueError "Conversation not found")
  | some conv =>
    if conv.user_id != user_id then
      .error (.valueError "Conversation not found or access denied")
    else
      .ok { id := conv.id, title := conv.title, user_id := conv.user_id
            created_at := conv.created_at, updated_at := conv.updated_at
            last_message_at := conv.last_message_at
            message_count := conv.message_count, is_active := conv.is_active
            messages :=
              sortTsAsc (st.messages.filter
                (fun m => m.conversation_id == conversation_id)) }

/-- Embeds `ConversationService.delete_conversation`: delete all the conversation's
messages, then the conversation, then update analytics. -/
def delete_conversation (ops : AnalyticsOps) (st : ChatState)
    (conversation_id user_id : String) : Except PyError (ChatState × Bool) :=
  match st.conversations.find? (fun c => c.id == conversation_id) with
  | none => .error (.valueError "Conversation not found or access denied")
  | some conv =>
    if conv.user_id != user_id then
      .error (.valueError "Conversation not found or access denied")
    else
      let msgs := st.messages.filter (fun m => !(m.conversation_id == conversation_id))
      let convs := st.conversations.filter (fun c => !(c.id == conv.id))
      let st1 : ChatState :=
        { conversations := convs, messages := msgs, analytics := st.analytics
          clock := st.clock }
      .ok (update_user_analytics ops st1 user_id "conversation_deleted", true)

/-- Iterated `send_message` on one conversation: `N` turns in sequence. -/
def send_turns (llm : String → String → List HistEntry → LLMResult)
    (index : List IndexedVector) (score : List Int → Int) (ops : AnalyticsOps)
    (st : ChatState) (conversation_id user_id : String) :
    List String → Except PyError ChatState
  | [] => .ok st
  | q :: qs =>
    match send_message llm index score ops st conversation_id q user_id with
    | .error e => .error e
    | .ok (st1, _) => send_turns llm index score ops st1 conversation_id user_id qs

/-- The messages of one conversation, in insertion order. -/
def conv_messages (st : ChatState) (conversation_id : String) : List MessageRec :=
  st.messages.filter (fun m => m.conversation_id == conversation_id)

/-- The role pattern of `n` completed turns: user/assistant, `n` times. -/
def alt_roles : Nat → List String
  | 0 => []
  | n + 1 => alt_roles n ++ ["user", "assistant"]

/-! ## Document ingestion pipeline (`backend/app/documents/service.py`)

Text extraction (PyPDF2 / python-docx / codec decoding) is an external
collaborator: its outcome is the parameter `extractedText` (`none` models an
extraction exception, which `_extract_text` converts to `None`).  The Mongo
object id for the new record is the parameter `newDocId`. -/

/-- A persisted `Document` record. -/
structure DocumentRec where
  id : String
  user_id : String
  filename : String
  original_filename : String
  file_type : String
  file_size : Nat
  chunk_count : Nat
  pinecone_ids : List String
  processing_status : String
  error_message : Option String
deriving DecidableEq

/-- A persisted `DocumentChunk` record (the per-document copies of
file-level fields carried by the Python model are kept where a claim touches
them and elided otherwise). -/
structure ChunkRec where
  document_id : String
  user_id : String
  chunk_index : Nat
  content : String
  pinecone_id : String
  token_count : Nat
  filename : String
  chunk_count : Nat
deriving DecidableEq

/-- The document-side datastore state. -/
structure DocDB where
  documents : List DocumentRec
  chunks : List ChunkRec
deriving DecidableEq

/-- The dict returned by `process_document`; failure dicts have no
`chunk_count`/`processing_status`, hence the `Option` fields. -/
structure ProcessDocResult where
  success : Bool
  error : Option String
  document_id : Option String
  chunk_count : Option Nat
  processing_status : Option String
deriving DecidableEq

/-- Embeds `settings.MAX_FILE_SIZE_MB * 1024 * 1024`. -/
def MAX_FILE_SIZE : Nat := 10 * 1024 * 1024

/-- Embeds `settings.allowed_file_types_list`. -/
def ALLOWED_FILE_TYPES : List String := ["pdf", "txt", "docx", "doc"]

/-- The characters after the last `'.'` of a filename, empty when it has no
dot. -/
def extChars (l : List Char) : List Char :=
  let rev := l.reverse
  let ext := rev.takeWhile (fun c => c ≠ '.')
  if ext.length = rev.length then [] else ext.reverse

/-- Embeds `DocumentProcessingService._get_file_extension`
(`os.path.splitext(filename)[1][1:]`): the text after the last dot, empty
when there is none.  (`splitext`'s special-casing of dotfiles is elided.) -/
def get_file_extension (filename : String) : String := ⟨extChars filename.data⟩

/-- Python `str.lower()` (ASCII case folding suffices here). -/
def pyLower (s : String) : String := ⟨s.data.map Char.toLower⟩

/-- Embeds `DocumentProcessingService._validate_file`: returns the error reason, or
`none` when the file passes validation. -/
def validate_file (file_size : Nat) (filename : String) : Option String :=
  if file_size > MAX_FILE_SIZE then
    some "File too large. Maximum size: 10MB"
  else if !(ALLOWED_FILE_TYPES.contains (pyLower (get_file_extension filename))) then
    some "File type not allowed. Allowed types: pdf, txt, docx, doc"
  else if file_size = 0 then some "File is empty"
  else none

/-- The provisional `Document` record `process_document` inserts before the
vector-processing step (with `processing_status="processing"`, counts still
zero). -/
def provisionalDocRecord (newDocId user_id filename : String)
    (file_size : Nat) : DocumentRec :=
  { id := newDocId, user_id := user_id, filename := filename
    original_filename := filename, file_type := get_file_extension filename
    file_size := file_size, chunk_count := 0, pinecone_ids := []
    processing_status := "processing", error_message := none }

/-- Embeds `DocumentProcessingService._save_chunk_details`: re-chunk the text (with
no metadata) and insert one `DocumentChunk` per chunk, with `chunk_index = i`
and `pinecone_id = ids[i]` (falling back to the composed id when out of
range). -/
def save_chunk_details (splitText : String → List String) (db : DocDB)
    (document_id user_id : String) (pinecone_ids : List String)
    (text_content filename : String) : DocDB :=
  let emptyMeta : DocMeta := { document_id := "", user_id := "", filename := "" }
  let chunks := chunk_text splitText text_content emptyMeta
  let newRecs := chunks.enum.map (fun p =>
    { document_id := document_id
      user_id := user_id
      chunk_index := p.1
      content := p.2.text
      pinecone_id := pinecone_ids.getD p.1 (document_id ++ "_chunk_" ++ toString p.1)
      token_count := p.2.token_count
      filename := filename
      chunk_count := chunks.length : ChunkRec })
  { db with chunks := db.chunks ++ newRecs }

/-- A failure dict of `process_document`. -/
def processDocFailure (msg : String) (document_id : Option String) :
    ProcessDocResult :=
  { success := false, error := some msg, document_id := document_id
    chunk_count := none, processing_status := none }

/-- Embeds `DocumentProcessingService.process_document`.  Validation failures and
empty extraction return before any record is persisted; then a provisional
record in `processing` status is inserted, vector processing runs, and on its
failure the provisional record is deleted (`document_record.delete()`) and
the error returned in the result dict. -/
def process_document (splitText : String → List String)
    (embed : String → List Int) (upsert : List VectorData → Bool) (db : DocDB)
    (file_size : Nat) (filename user_id : String)
    (extractedText : Option String) (newDocId : String) :
    DocDB × ProcessDocResult :=
  match validate_file file_size filename with
  | some err => (db, processDocFailure err none)
  | none =>
    match extractedText with
    | none => (db, processDocFailure "Failed to extract text from document" none)
    | some text_content =>
      if text_content = "" then
        (db, processDocFailure "Failed to extract text from document" none)
      else
        let docRec := provisionalDocRecord newDocId user_id filename file_size
        let db1 := { db with documents := db.documents ++ [docRec] }
        let md : DocMeta :=
          { document_id := newDocId, user_id := user_id, filename := filename }
        let vr := process_and_store_document splitText embed upsert text_content md
        if vr.success = false then
          let db2 :=
            { db1 with documents := db1.documents.filter (fun d => d.id != newDocId) }
          (db2, processDocFailure
            ("Vector processing failed: " ++ vr.error.getD "") (some newDocId))
        else
          let docRec2 :=
            { docRec with
              chunk_count := vr.chunk_count
              pinecone_ids := vr.pinecone_ids
              processing_status := "completed" }
          let db2 :=
            { db1 with documents :=
                db1.documents.map (fun d => if d.id == newDocId then docRec2 else d) }
          let db3 := save_chunk_details splitText db2 newDocId user_id
            vr.pinecone_ids text_content filename
          (db3,
            { success := true, error := none, document_id := some newDocId
              chunk_count := some vr.chunk_count
              processing_status := some "completed" })

/-- The state of one conversation after `n` completed turns: it is found
under its id with the right owner and `message_count = n`, and its message
list (kept in insertion order, which the strictly increasing timestamps make
the timestamp order) consists of `n` alternating user/assistant pairs. -/
def ConvTurnInv (st : ChatState) (cid uid : String) (n : Nat) : Prop :=
  (match st.conversations.find? (fun c => c.id == cid) with
   | some conv => conv.user_id = uid ∧ conv.message_count = n
   | none => False) ∧
  (conv_messages st cid).map (fun m => m.role) = alt_roles n ∧
  List.Pairwise (fun a b => a.timestamp < b.timestamp) (conv_messages st cid) ∧
  (∀ m ∈ conv_messages st cid, m.timestamp < st.clock)

/-! ## Concrete fixtures

Small concrete instantiations of the external collaborators and datastore
states, used to evaluate the embedded operations on closed inputs. -/

/-- A splitter that returns the whole text as one chunk. -/
def wSplitId : String → List String := fun s => [s]

/-- A splitter that produces no chunks. -/
def wSplitNil : String → List String := fun _ => []

/-- A total embedding provider. -/
def wEmbed : String → List Int := fun _ => [1]

/-- A similarity scoring: the stored vector's first component. -/
def wScore : List Int → Int := fun v => v.headD 0

/-- An always-successful upsert. -/
def wUpsert : List VectorData → Bool := fun _ => true

/-- A fixed LLM reply. -/
def wLLM : String → String → List HistEntry → LLMResult := fun _ _ _ =>
  { response := "the answer"
    usage := { prompt_tokens := 1, completion_tokens := 1, total_tokens := 2 } }

/-- An LLM whose reply reveals how many history entries it was given. -/
def wLLMProbe : String → String → List HistEntry → LLMResult := fun _ _ hist =>
  { response := toString hist.length
    usage := { prompt_tokens := 0, completion_tokens := 0, total_tokens := 0 } }

/-- Healthy analytics datastore operations. -/
def opsOk : AnalyticsOps :=
  { find := fun a uid => .ok (a.find? (fun r => r.user_id == uid))
    save := fun a r => .ok (a.filter (fun x => x.user_id != r.user_id) ++ [r]) }

/-- Analytics datastore operations that always fail. -/
def opsDown : AnalyticsOps :=
  { find := fun _ _ => .error (.valueError "analytics db unavailable")
    save := fun _ _ => .error (.valueError "analytics db unavailable") }

/-- A vector indexed by owner `A`. -/
def wMetaA : VecMetadata :=
  { document_id := "d1", user_id := "A", filename := "f.txt", chunk_index := 0
    total_chunks := 1, text := "alpha secret" }

/-- A vector indexed by owner `B`. -/
def wMetaB : VecMetadata :=
  { document_id := "d2", user_id := "B", filename := "g.txt", chunk_index := 0
    total_chunks := 1, text := "beta secret" }

/-- A two-owner index. -/
def wIndex : List IndexedVector :=
  [ { id := "d1_chunk_0", values := [9], metadata := wMetaA }
  , { id := "d2_chunk_0", values := [7], metadata := wMetaB } ]

/-- A conversation of owner `A`. -/
def wConvA : ConversationRec :=
  { id := "c1", user_id := "A", title := "t", created_at := 0, updated_at := 0
    last_message_at := 0, message_count := 0, is_active := true
    chat_type := "universal", selected_document_ids := [], document_names := [] }

/-- State holding only `A`'s conversation `c1`. -/
def wStA : ChatState :=
  { conversations := [wConvA], messages := [], analytics := [], clock := 0 }

/-- State where `c1` belongs to `B` instead. -/
def wStB : ChatState :=
  { conversations := [{ wConvA with user_id := "B" }], messages := []
    analytics := [], clock := 0 }

/-- The empty datastore state. -/
def wStEmpty : ChatState :=
  { conversations := [], messages := [], analytics := [], clock := 0 }

/-- The empty document store. -/
def wDocDB : DocDB := { documents := [], chunks := [] }

/-- The user message `send_message` inserts into `c1` at clock 0. -/
def wUserMsg : MessageRec :=
  { conversation_id := "c1", role := "user", content := "hi", timestamp := 1
    sources := none, response_time := none, token_count := none }

/-- Concrete document metadata. -/
def wDocMeta : DocMeta :=
  { document_id := "d1", user_id := "A", filename := "f.txt" }

/-- The chunk `chunk_text` produces from `" hi "` with `wSplitId`. -/
def wChunkHi : ChunkData :=
  { text := "hi", chunk_index := 0, token_count := 1
    metadata := { document_id := "d1", user_id := "A", filename := "f.txt"
                  chunk_index := 0, total_chunks := 1 } }

/-! ## Helper lemmas -/

theorem mem_dropWhile_of_neg {p : Char → Bool} {x : Char} :
    ∀ {l : List Char}, p x = false → x ∈ l → x ∈ l.dropWhile p
  | [], _, hx => by cases hx
  | a :: t, hp, hx => by
    rw [List.dropWhile_cons]
    by_cases ha : p a = true
    · simp only [ha, if_true]
      rcases List.mem_cons.mp hx with rfl | hxt
      · rw [hp] at ha; cases ha
      · exact mem_dropWhile_of_neg hp hxt
    · simp only [ha, if_false]
      exact hx

theorem dropWhile_head_false {p : Char → Bool} :
    ∀ {l : List Char} {a : Char} {t : List Char},
      l.dropWhile p = a :: t → p a = false
  | [], _, _, h => by cases h
  | b :: r, a, t, h => by
    rw [List.dropWhile_cons] at h
    by_cases hb : p b = true
    · simp only [hb, if_true] at h
      exact dropWhile_head_false h
    · simp only [hb, if_false] at h
      cases h
      exact Bool.not_eq_true _ ▸ (by simpa using hb)

theorem length_dropWhile_le (p : Char → Bool) :
    ∀ l : List Char, (l.dropWhile p).length ≤ l.length
  | [] => Nat.le_refl _
  | a :: t => by
    rw [List.dropWhile_cons]
    by_cases ha : p a = true
    · simp only [ha, if_true]
      exact Nat.le_succ_of_le (length_dropWhile_le p t)
    · simp [ha]

theorem length_stripChars_le (l : List Char) :
    (stripChars l).length ≤ l.length := by
  unfold stripChars
  calc ((l.dropWhile Char.isWhitespace).reverse.dropWhile
          Char.isWhitespace).reverse.length
      = ((l.dropWhile Char.isWhitespace).reverse.dropWhile
          Char.isWhitespace).length := List.length_reverse _
    _ ≤ (l.dropWhile Char.isWhitespace).reverse.length :=
        length_dropWhile_le _ _
    _ = (l.dropWhile Char.isWhitespace).length := List.length_reverse _
    _ ≤ l.length := length_dropWhile_le _ _

theorem stripChars_ne_nil_of_mem {l : List Char} {x : Char}
    (hx : x ∈ l) (hw : x.isWhitespace = false) : stripChars l ≠ [] := by
  unfold stripChars
  have h1 : x ∈ l.dropWhile Char.isWhitespace := mem_dropWhile_of_neg hw hx
  have h2 : x ∈ (l.dropWhile Char.isWhitespace).reverse :=
    List.mem_reverse.mpr h1
  have h3 : x ∈ (l.dropWhile Char.isWhitespace).reverse.dropWhile
      Char.isWhitespace := mem_dropWhile_of_neg hw h2
  intro hnil
  rw [List.reverse_eq_nil_iff] at hnil
  rw [hnil] at h3
  cases h3

theorem exists_not_ws_of_stripChars_ne_nil {l : List Char}
    (h : stripChars l ≠ []) : ∃ c ∈ stripChars l, c.isWhitespace = false := by
  unfold stripChars at h ⊢
  cases hi : (l.dropWhile Char.isWhitespace).reverse.dropWhile
      Char.isWhitespace with
  | nil => rw [hi] at h; simp at h
  | cons a t =>
    have ha : a.isWhitespace = false := dropWhile_head_false hi
    refine ⟨a, ?_, ha⟩
    simp

theorem stringMk_eq_empty_iff (l : List Char) :
    (String.mk l = "") ↔ l = [] := by
  constructor
  · intro h
    have h2 := congrArg String.data h
    simpa using h2
  · intro h
    rw [h]

theorem pyStrip_eq_empty_iff (s : String) :
    pyStrip s = "" ↔ stripChars s.data = [] := by
  unfold pyStrip
  exact stringMk_eq_empty_iff _

theorem mem_chunk_text_text {splitText : String → List String} {text : String}
    {md : DocMeta} {c : ChunkData} (hc : c ∈ chunk_text splitText text md) :
    ∃ s, c.text = pyStrip s ∧ pyStrip s ≠ "" := by
  unfold chunk_text at hc
  by_cases h0 : pyStrip text = ""
  · rw [if_pos h0] at hc; cases hc
  · rw [if_neg h0] at hc
    by_cases h1 : ((splitText text).filter (fun c => pyStrip c != "")).isEmpty
    · rw [if_pos h1] at hc; cases hc
    · rw [if_neg h1] at hc
      rcases List.mem_map.mp hc with ⟨p, hp, hpc⟩
      have hmem : p.2 ∈ (splitText text).filter (fun c => pyStrip c != "") :=
        List.snd_mem_of_mem_enum hp
      have hvalid : (pyStrip p.2 != "") = true := (List.mem_filter.mp hmem).2
      refine ⟨p.2, ?_, ?_⟩
      · rw [← hpc]
      · simpa using hvalid

/-- C9.  Empty or whitespace-only input makes `chunk_text` return the empty
list (total, no exception), and every chunk in any output has text that is
neither empty nor all-whitespace (it contains a non-whitespace character). -/
theorem chunk_text_blank_handling (splitText : String → List String)
    (text : String) (md : DocMeta) :
    (pyStrip text = "" → chunk_text splitText text md = []) ∧
    (∀ c ∈ chunk_text splitText text md,
      c.text ≠ "" ∧ ∃ ch ∈ c.text.data, ch.isWhitespace = false) := by
  constructor
  · intro h
    unfold chunk_text
    rw [if_pos h]
  · intro c hc
    rcases mem_chunk_text_text hc with ⟨s, hcs, hs⟩
    constructor
    · rw [hcs]; exact hs
    · have hnil : stripChars s.data ≠ [] := by
        intro hn
        exact hs ((pyStrip_eq_empty_iff s).mpr hn)
      rcases exists_not_ws_of_stripChars_ne_nil hnil with ⟨ch, hch, hw⟩
      refine ⟨ch, ?_, hw⟩
      rw [hcs]
      exact hch

/-- Witness for C9 at concrete inputs: a whitespace-only text chunks to `[]`,
and the single chunk produced from `" hi "` is non-blank. -/
theorem chunk_text_blank_handling_witness :
    (pyStrip "  \n " = "" ∧ chunk_text wSplitId "  \n " wDocMeta = []) ∧
    (wChunkHi ∈ chunk_text wSplitId " hi " wDocMeta ∧
      wChunkHi.text ≠ "" ∧
      ∃ ch ∈ wChunkHi.text.data, ch.isWhitespace = false) := by
  refine ⟨⟨by decide,
    (chunk_text_blank_handling wSplitId "  \n " wDocMeta).1 (by decide)⟩,
    by decide, ?_⟩
  exact (chunk_text_blank_handling wSplitId " hi " wDocMeta).2 wChunkHi (by decide)

theorem pyStrip_length_le (s : String) : (pyStrip s).length ≤ s.length :=
  length_stripChars_le s.data

theorem processedText_length_le (t : String) : (processedText t).length ≤ 8000 := by
  unfold processedText
  by_cases h : t.length > 8000
  · rw [if_pos h]
    calc (pyStrip (pyTake t 8000)).length ≤ (pyTake t 8000).length :=
          pyStrip_length_le _
      _ = (t.data.take 8000).length := rfl
      _ ≤ 8000 := by
          rw [List.length_take]
          exact Nat.min_le_left _ _
  · rw [if_neg h]
    calc (pyStrip t).length ≤ t.length := pyStrip_length_le t
      _ ≤ 8000 := Nat.le_of_not_lt h

theorem processBatchesAux_eq_map (embed : String → List Int) :
    ∀ (fuel : Nat) (ts : List String), ts.length ≤ fuel →
      processBatchesAux embed fuel ts = ts.map embed := by
  intro fuel
  induction fuel with
  | zero =>
    intro ts hts
    have h : ts = [] := List.eq_nil_of_length_eq_zero (Nat.le_zero.mp hts)
    subst h
    rfl
  | succ n ih =>
    intro ts hts
    match ts with
    | [] => rfl
    | t :: rest =>
      have hdrop : ((t :: rest).drop 1000).length ≤ n := by
        simp only [List.length_drop, List.length_cons]
        simp only [List.length_cons] at hts
        omega
      rw [processBatchesAux, ih _ hdrop, ← List.map_append,
        List.take_append_drop]

theorem processBatches_eq_map (embed : String → List Int) (ts : List String) :
    processBatches embed ts = ts.map embed :=
  processBatchesAux_eq_map embed ts.length ts (Nat.le_refl _)

/-- C7.  `generate_embeddings_batch` fails exactly when the filtering loop
leaves zero valid texts: blank inputs are skipped (not fatal), over-long
inputs are truncated to at most 8000 characters (not fatal), and a batch of
exclusively blank texts raises. -/
theorem generate_embeddings_batch_error_iff (embed : String → List Int)
    (texts : List String) :
    ((∃ e, generate_embeddings_batch embed texts = .error e) ↔
      validTexts texts = []) ∧
    (∀ t ∈ validTexts texts, t.length ≤ 8000) := by
  constructor
  · unfold generate_embeddings_batch
    by_cases h0 : texts.isEmpty
    · rw [if_pos h0]
      have : texts = [] := List.isEmpty_iff.mp h0
      subst this
      simp [validTexts]
    · rw [if_neg h0]
      by_cases h1 : (validTexts texts).isEmpty
      · rw [if_pos h1]
        simp [List.isEmpty_iff.mp h1]
      · rw [if_neg h1]
        have hvne : validTexts texts ≠ [] := by
          intro h; exact h1 (by simp [h])
        have hmap : processBatches embed (validTexts texts) =
            (validTexts texts).map embed := processBatches_eq_map _ _
        have hne : ¬(processBatches embed (validTexts texts)).isEmpty := by
          rw [hmap]
          simp only [List.isEmpty_iff, List.map_eq_nil_iff]
          exact hvne
        rw [if_neg hne]
        constructor
        · rintro ⟨e, he⟩; cases he
        · intro h; exact absurd h hvne
  · intro t ht
    rcases List.mem_filterMap.mp ht with ⟨t0, _, hsome⟩
    by_cases hvalid : isValidText t0 = true
    · rw [if_pos hvalid] at hsome
      cases hsome
      exact processedText_length_le t0
    · rw [if_neg hvalid] at hsome
      cases hsome

/-- Witness for C7 at concrete inputs: an all-blank batch has no valid texts
(the iff instantiates to an error), a batch with a blank and a real text has
one valid processed text, and that text obeys the 8000-character cap. -/
theorem generate_embeddings_batch_error_iff_witness :
    ((∃ e, generate_embeddings_batch wEmbed ["", "  "] = .error e) ↔
      validTexts ["", "  "] = []) ∧
    ((∃ e, generate_embeddings_batch wEmbed ["", " hi "] = .error e) ↔
      validTexts ["", " hi "] = []) ∧
    (("hi" : String) ∈ validTexts ["", " hi "] ∧ ("hi" : String).length ≤ 8000) := by
  refine ⟨(generate_embeddings_batch_error_iff wEmbed _).1,
    (generate_embeddings_batch_error_iff wEmbed _).1, ?_, ?_⟩
  · decide
  · exact (generate_embeddings_batch_error_iff wEmbed ["", " hi "]).2 "hi" (by decide)

theorem enum_map_fst_fun {α β : Type} (l : List α) (g : Nat → β) :
    l.enum.map (fun p => g p.1) = (List.range l.length).map g := by
  have h1 : l.enum.map (fun p => g p.1) = (l.enum.map Prod.fst).map g := by
    rw [List.map_map]
    rfl
  rw [h1, List.enum_map_fst]

theorem chunk_text_all_valid {splitText : String → List String} {text : String}
    {md : DocMeta} : ∀ c ∈ chunk_text splitText text md,
      isValidText c.text = true := by
  intro c hc
  rcases mem_chunk_text_text hc with ⟨s, hcs, hs⟩
  have hne : stripChars s.data ≠ [] := by
    intro hn
    exact hs ((pyStrip_eq_empty_iff s).mpr hn)
  rcases exists_not_ws_of_stripChars_ne_nil hne with ⟨ch, hch, hw⟩
  have h1 : c.text ≠ "" := by rw [hcs]; exact hs
  have h2 : pyStrip c.text ≠ "" := by
    rw [hcs]
    intro h
    have hd : stripChars (pyStrip s).data = [] := (pyStrip_eq_empty_iff _).mp h
    exact stripChars_ne_nil_of_mem (l := (pyStrip s).data) hch hw hd
  unfold isValidText
  simp [h1, h2]

theorem validTexts_of_all_valid {texts : List String}
    (h : ∀ t ∈ texts, isValidText t = true) :
    validTexts texts = texts.map processedText := by
  induction texts with
  | nil => rfl
  | cons t rest ih =>
    unfold validTexts at ih ⊢
    rw [List.filterMap_cons, if_pos (h t (by simp)), List.map_cons]
    rw [ih (fun x hx => h x (by simp [hx]))]

theorem generate_embeddings_batch_ok_length {embed : String → List Int}
    {texts : List String} {embeddings : List (List Int)}
    (h : generate_embeddings_batch embed texts = .ok embeddings)
    (hv : ∀ t ∈ texts, isValidText t = true) :
    embeddings.length = texts.length := by
  unfold generate_embeddings_batch at h
  by_cases h0 : texts.isEmpty
  · rw [if_pos h0] at h; cases h
  · rw [if_neg h0] at h
    by_cases h1 : (validTexts texts).isEmpty
    · rw [if_pos h1] at h; cases h
    · rw [if_neg h1] at h
      by_cases h2 : (processBatches embed (validTexts texts)).isEmpty
      · rw [if_pos h2] at h; cases h
      · rw [if_neg h2] at h
        cases h
        rw [processBatches_eq_map, List.length_map,
          validTexts_of_all_valid hv, List.length_map]

/-- C8.  When ingestion succeeds, the chunker's indices are exactly
`0..n-1`, the reported `chunk_count` is `n`, the vector id for chunk `i` is
`"{document_id}_chunk_{i}"`, and the persisted `DocumentChunk` records carry
exactly the indices `0..n-1`. -/
theorem process_and_store_chunk_ids (splitText : String → List String)
    (embed : String → List Int) (upsert : List VectorData → Bool)
    (content : String) (md : DocMeta) (r : ProcessStoreResult)
    (hr : process_and_store_document splitText embed upsert content md = r)
    (hs : r.success = true) :
    r.chunk_count = (chunk_document splitText content md).length ∧
    (chunk_document splitText content md).map (fun c => c.chunk_index) =
      List.range r.chunk_count ∧
    r.pinecone_ids = (List.range r.chunk_count).map
      (fun i => md.document_id ++ "_chunk_" ++ toString i) ∧
    (∀ db document_id user_id filename,
      ((save_chunk_details splitText db document_id user_id r.pinecone_ids
          content filename).chunks.drop db.chunks.length).map
        (fun c => c.chunk_index) =
      List.range (chunk_text splitText content
        { document_id := "", user_id := "", filename := "" }).length) := by
  have hsave : ∀ db document_id user_id filename (ids : List String),
      ((save_chunk_details splitText db document_id user_id ids
          content filename).chunks.drop db.chunks.length).map
        (fun c => c.chunk_index) =
      List.range (chunk_text splitText content
        { document_id := "", user_id := "", filename := "" }).length := by
    intro db document_id user_id filename ids
    unfold save_chunk_details
    simp only [List.drop_left]
    rw [List.map_map]
    exact (enum_map_fst_fun _ (fun i => i)).trans (List.map_id' _)
  have hindices : (chunk_text splitText content md).map (fun c => c.chunk_index) =
      List.range (chunk_text splitText content md).length := by
    unfold chunk_text
    by_cases hb : pyStrip content = ""
    · rw [if_pos hb]; rfl
    · rw [if_neg hb]
      by_cases hv : ((splitText content).filter
          (fun c => pyStrip c != "")).isEmpty
      · rw [if_pos hv]; rfl
      · rw [if_neg hv]
        rw [List.map_map, List.length_map, List.enum_length]
        exact (enum_map_fst_fun _ (fun i => i)).trans (List.map_id' _)
  unfold process_and_store_document at hr
  by_cases h0 : (chunk_document splitText content md).isEmpty
  · rw [if_pos h0] at hr
    rw [← hr] at hs
    cases hs
  · rw [if_neg h0] at hr
    simp only [] at hr
    split at hr
    · rw [← hr] at hs
      cases hs
    · rename_i embeddings hemb
      have hlen : embeddings.length =
          (chunk_document splitText content md).length := by
        have h1 := generate_embeddings_batch_ok_length hemb ?_
        · rw [List.length_map] at h1
          exact h1
        · intro t ht
          rcases List.mem_map.mp ht with ⟨c, hc, hct⟩
          rw [← hct]
          exact chunk_text_all_valid c hc
      have hzip : ((chunk_document splitText content md).zip embeddings).length =
          (chunk_document splitText content md).length := by
        rw [List.length_zip, hlen, Nat.min_self]
      split at hr
      · rw [← hr]
        refine ⟨rfl, hindices, ?_, fun db d u f => hsave db d u f _⟩
        show List.map (fun p => md.document_id ++ "_chunk_" ++ toString p.1)
            ((chunk_document splitText content md).zip embeddings).enum =
          List.map (fun i => md.document_id ++ "_chunk_" ++ toString i)
            (List.range (chunk_document splitText content md).length)
        rw [← hzip]
        exact enum_map_fst_fun ((chunk_document splitText content md).zip embeddings)
          (fun i => md.document_id ++ "_chunk_" ++ toString i)
      · rw [← hr] at hs
        cases hs

/-- Witness for C8 on a concrete successful ingestion. -/
theorem process_and_store_chunk_ids_witness :
    (process_and_store_document wSplitId wEmbed wUpsert "hello world"
        wDocMeta).success = true ∧
    (chunk_document wSplitId "hello world" wDocMeta).map (fun c => c.chunk_index) =
      List.range (process_and_store_document wSplitId wEmbed wUpsert
        "hello world" wDocMeta).chunk_count ∧
    (process_and_store_document wSplitId wEmbed wUpsert "hello world"
        wDocMeta).pinecone_ids =
      (List.range (process_and_store_document wSplitId wEmbed wUpsert
        "hello world" wDocMeta).chunk_count).map
        (fun i => wDocMeta.document_id ++ "_chunk_" ++ toString i) := by
  have h := process_and_store_chunk_ids wSplitId wEmbed wUpsert "hello world"
    wDocMeta _ rfl (by decide)
  exact ⟨by decide, h.1 ▸ h.2.1, h.2.2.1⟩

theorem mem_insertScoreDesc {x y : QueryMatch} :
    ∀ {l : List QueryMatch}, x ∈ insertScoreDesc y l → x = y ∨ x ∈ l
  | [], h => by
    simp [insertScoreDesc] at h
    exact Or.inl h
  | z :: zs, h => by
    unfold insertScoreDesc at h
    by_cases hc : y.score ≥ z.score
    · rw [if_pos hc] at h
      rcases List.mem_cons.mp h with rfl | h2
      · exact Or.inl rfl
      · exact Or.inr h2
    · rw [if_neg hc] at h
      rcases List.mem_cons.mp h with rfl | h2
      · exact Or.inr (List.mem_cons_self _ _)
      · rcases mem_insertScoreDesc h2 with h3 | h3
        · exact Or.inl h3
        · exact Or.inr (List.mem_cons_of_mem _ h3)

theorem mem_sortScoreDesc {x : QueryMatch} :
    ∀ {l : List QueryMatch}, x ∈ sortScoreDesc l → x ∈ l
  | [], h => by cases h
  | z :: zs, h => by
    unfold sortScoreDesc at h
    rcases mem_insertScoreDesc h with rfl | h2
    · exact List.mem_cons_self _ _
    · exact List.mem_cons_of_mem _ (mem_sortScoreDesc h2)

theorem mem_query_vectors {index : List IndexedVector} {score : List Int → Int}
    {top_k : Option Nat} {f : FilterDict} {q : QueryMatch}
    (hq : q ∈ query_vectors index score top_k (some f)) :
    matchesFilter q.metadata f = true := by
  unfold query_vectors at hq
  have h1 := List.mem_of_mem_take hq
  have h2 := mem_sortScoreDesc h1
  rcases List.mem_map.mp h2 with ⟨r, hr, hrq⟩
  have h3 : matchesFilter r.metadata f = true := (List.mem_filter.mp hr).2
  rw [← hrq]
  exact h3

/-- C1.  Global search only returns hits whose metadata owner equals the
caller, and document-scoped search additionally only returns hits whose
document id belongs to the requested set — for every index content, scorer,
`top_k` and owner. -/
theorem search_isolation (index : List IndexedVector) (score : List Int → Int)
    (user_id : String) (top_k : Option Nat) :
    (∀ hit ∈ search_similar_content index score user_id top_k,
      hit.metadata.user_id = user_id) ∧
    (∀ (document_ids : List String),
      ∀ hit ∈ search_document_scoped_content index score user_id document_ids top_k,
        hit.metadata.user_id = user_id ∧
        hit.metadata.document_id ∈ document_ids) := by
  constructor
  · intro hit hmem
    unfold search_similar_content formatSearchResults at hmem
    rcases List.mem_map.mp hmem with ⟨q, hq, hqh⟩
    have h := mem_query_vectors hq
    unfold matchesFilter at h
    rw [← hqh]
    simp only [Bool.and_eq_true] at h
    exact eq_of_beq h.1
  · intro document_ids hit hmem
    unfold search_document_scoped_content formatSearchResults at hmem
    rcases List.mem_map.mp hmem with ⟨q, hq, hqh⟩
    have h := mem_query_vectors hq
    unfold matchesFilter at h
    simp only [Bool.and_eq_true] at h
    rw [← hqh]
    refine ⟨eq_of_beq h.1, ?_⟩
    simpa using h.2

/-- Witness for C1: in a two-owner index, a hit returned to owner `A` has
owner `A`, and a scoped hit lies in the requested document set. -/
theorem search_isolation_witness :
    ((⟨"d1_chunk_0", 9, "alpha secret", wMetaA⟩ : SearchResult)
        ∈ search_similar_content wIndex wScore "A" none ∧
      wMetaA.user_id = "A") ∧
    ((⟨"d1_chunk_0", 9, "alpha secret", wMetaA⟩ : SearchResult)
        ∈ search_document_scoped_content wIndex wScore "A" ["d1", "d9"] none ∧
      wMetaA.user_id = "A" ∧ wMetaA.document_id ∈ ["d1", "d9"]) := by
  constructor
  · refine ⟨by decide, ?_⟩
    exact (search_isolation wIndex wScore "A" none).1
      ⟨"d1_chunk_0", 9, "alpha secret", wMetaA⟩ (by decide)
  · refine ⟨by decide, ?_⟩
    exact (search_isolation wIndex wScore "A" none).2 ["d1", "d9"]
      ⟨"d1_chunk_0", 9, "alpha secret", wMetaA⟩ (by decide)

/-- C4.  At a concrete retrieval hit whose metadata is
`{document_id := "d1", filename := "f.txt", chunk_index := 0}` with score 9:
the universal-chat path (`_process_rag_query`) emits the citation
`{document_id: None, filename: None, chunk_index: None, score: 9}`, because
it reads `result.get("document_id")` on the formatted result dict (whose
keys are only `id/score/text/metadata`), while the document-chat path
(`_process_document_rag_query`) reads the same fields out of
`result["metadata"]` and emits the full citation.  The third conjunct
records that the hit's metadata does carry `document_id = "d1"`, so the
universal-path citation is not the mapping of the hit's metadata. -/
theorem universal_citation_drops_metadata :
    (process_rag_query wLLM wIndex wScore "q" "A" []).sources =
      [{ document_id := none, filename := none, chunk_index := none
         score := some (.i 9) }] ∧
    (process_document_rag_query wLLM wIndex wScore "q" "A" [] ["d1"]).sources =
      [{ document_id := some (.s "d1"), filename := some (.s "f.txt")
         chunk_index := some (.i 0), score := some (.i 9) }] ∧
    (search_similar_content wIndex wScore "A" (some TOP_K_RESULTS)).map
      (fun r => r.metadata.document_id) = ["d1"] := by
  decide

/-- Counterexample for C5 as stated: on a document whose chunking fails
("No chunks created"), `process_document` returns a failure result but the
final document store is empty — the provisional record was deleted, not
marked `failed` with an error message as the claim requires. -/
theorem ingestion_failure_leaves_no_failed_record :
    (process_document wSplitNil wEmbed wUpsert wDocDB 5 "a.txt" "u1"
        (some "hello") "doc1").2.success = false ∧
    (process_document wSplitNil wEmbed wUpsert wDocDB 5 "a.txt" "u1"
        (some "hello") "doc1").2.error =
      some "Vector processing failed: No chunks created from document" ∧
    (process_document wSplitNil wEmbed wUpsert wDocDB 5 "a.txt" "u1"
        (some "hello") "doc1").1.documents = [] := by
  decide

theorem map_replace_id_of_fresh (l : List DocumentRec) (nid : String)
    (x : DocumentRec) (h : ∀ d ∈ l, d.id ≠ nid) :
    l.map (fun d => if d.id == nid then x else d) = l := by
  induction l with
  | nil => rfl
  | cons a t ih =>
    simp only [List.map_cons]
    rw [if_neg (by simpa using h a (by simp))]
    rw [ih (fun d hd => h d (by simp [hd]))]

/-- C5 (amended).  The record inserted before vector processing carries
status `"processing"`; a vector-processing failure is captured in the
returned result dict (`success=False` plus error message, nothing thrown)
while the provisional Document record is deleted — the store returns to its
prior contents and holds no record under the new id; a success leaves the
record in status `"completed"`. -/
theorem process_document_failure_handling
    (splitText : String → List String) (embed : String → List Int)
    (upsert : List VectorData → Bool) (db : DocDB) (file_size : Nat)
    (filename user_id text newDocId : String)
    (hval : validate_file file_size filename = none)
    (htext : ¬text = "")
    (hfresh : ∀ d ∈ db.documents, d.id ≠ newDocId) :
    (provisionalDocRecord newDocId user_id filename file_size).processing_status
      = "processing" ∧
    ((process_and_store_document splitText embed upsert text
        { document_id := newDocId, user_id := user_id
          filename := filename }).success = false →
      (process_document splitText embed upsert db file_size filename user_id
          (some text) newDocId).2.success = false ∧
      (process_document splitText embed upsert db file_size filename user_id
          (some text) newDocId).2.error =
        some ("Vector processing failed: " ++
          (process_and_store_document splitText embed upsert text
            { document_id := newDocId, user_id := user_id
              filename := filename }).error.getD "") ∧
      (process_document splitText embed upsert db file_size filename user_id
          (some text) newDocId).1.documents = db.documents) ∧
    ((process_and_store_document splitText embed upsert text
        { document_id := newDocId, user_id := user_id
          filename := filename }).success = true →
      (process_document splitText embed upsert db file_size filename user_id
          (some text) newDocId).1.documents =
        db.documents ++
          [{ provisionalDocRecord newDocId user_id filename file_size with
             chunk_count := (process_and_store_document splitText embed upsert
               text { document_id := newDocId, user_id := user_id
                      filename := filename }).chunk_count
             pinecone_ids := (process_and_store_document splitText embed upsert
               text { document_id := newDocId, user_id := user_id
                      filename := filename }).pinecone_ids
             processing_status := "completed" }]) := by
  have hkeep : db.documents.filter (fun d => d.id != newDocId) = db.documents := by
    apply List.filter_eq_self.mpr
    intro d hd
    simpa using hfresh d hd
  refine ⟨rfl, ?_, ?_⟩
  · intro hvr
    unfold process_document
    rw [hval]
    simp only []
    rw [if_neg htext, if_pos hvr]
    refine ⟨rfl, rfl, ?_⟩
    show ((db.documents ++ [provisionalDocRecord newDocId user_id filename
        file_size]).filter (fun d => d.id != newDocId)) = db.documents
    rw [List.filter_append, hkeep]
    have hprov : ((provisionalDocRecord newDocId user_id filename
        file_size).id != newDocId) = false := by
      simp [provisionalDocRecord]
    simp [List.filter_cons, hprov]
  · intro hvr
    unfold process_document
    rw [hval]
    simp only []
    rw [if_neg htext, if_neg (by simp [hvr])]
    show ((db.documents ++ [provisionalDocRecord newDocId user_id filename
        file_size]).map (fun d => if d.id == newDocId then _ else d)) = _
    rw [List.map_append, map_replace_id_of_fresh _ _ _ hfresh]
    have hprov : ((provisionalDocRecord newDocId user_id filename
        file_size).id == newDocId) = true := by
      simp [provisionalDocRecord]
    simp only [List.map_cons, List.map_nil, hprov, if_true]

/-- Witness for C5 (amended) on a concrete successful ingestion. -/
theorem process_document_failure_handling_witness :
    validate_file 5 "a.txt" = none ∧
    ¬("hello" : String) = "" ∧
    (∀ d ∈ wDocDB.documents, d.id ≠ "doc1") ∧
    (provisionalDocRecord "doc1" "u1" "a.txt" 5).processing_status
      = "processing" ∧
    (process_and_store_document wSplitId wEmbed wUpsert "hello"
      { document_id := "doc1", user_id := "u1"
        filename := "a.txt" }).success = true ∧
    (process_document wSplitId wEmbed wUpsert wDocDB 5 "a.txt" "u1"
        (some "hello") "doc1").1.documents =
      wDocDB.documents ++
        [{ provisionalDocRecord "doc1" "u1" "a.txt" 5 with
           chunk_count := (process_and_store_document wSplitId wEmbed wUpsert
             "hello" { document_id := "doc1", user_id := "u1"
                       filename := "a.txt" }).chunk_count
           pinecone_ids := (process_and_store_document wSplitId wEmbed wUpsert
             "hello" { document_id := "doc1", user_id := "u1"
                       filename := "a.txt" }).pinecone_ids
           processing_status := "completed" }] := by
  have h := process_document_failure_handling wSplitId wEmbed wUpsert wDocDB 5
    "a.txt" "u1" "hello" "doc1" (by decide) (by decide) (by decide)
  exact ⟨by decide, by decide, by decide, h.1, by decide, h.2.2 (by decide)⟩

/-- Counterexample for C3 as stated: `get_conversation` answers a missing
conversation and a foreign-owned conversation with two different error
messages, so the two cases are distinguishable to the caller. -/
theorem get_conversation_errors_distinguish :
    get_conversation wStEmpty "c1" "A" =
      .error (.valueError "Conversation not found") ∧
    get_conversation wStB "c1" "A" =
      .error (.valueError "Conversation not found or access denied") ∧
    PyError.valueError "Conversation not found" ≠
      PyError.valueError "Conversation not found or access denied" := by
  refine ⟨rfl, rfl, by decide⟩

/-- C3 (amended).  `send_message` and `delete_conversation` raise the same
`ValueError("Conversation not found or access denied")` whether the
conversation is absent or foreign-owned (indistinguishable);
`get_conversation` raises `ValueError` in both cases too, but with
`"Conversation not found"` on absence and
`"Conversation not found or access denied"` on ownership mismatch. -/
theorem notfound_error_uniformity
    (llm : String → String → List HistEntry → LLMResult)
    (index : List IndexedVector) (score : List Int → Int) (ops : AnalyticsOps)
    (st : ChatState) (cid q uid : String) :
    (st.conversations.find? (fun c => c.id == cid) = none →
      send_message llm index score ops st cid q uid =
        .error (.valueError "Conversation not found or access denied") ∧
      delete_conversation ops st cid uid =
        .error (.valueError "Conversation not found or access denied") ∧
      get_conversation st cid uid =
        .error (.valueError "Conversation not found")) ∧
    (∀ conv, st.conversations.find? (fun c => c.id == cid) = some conv →
      conv.user_id ≠ uid →
      send_message llm index score ops st cid q uid =
        .error (.valueError "Conversation not found or access denied") ∧
      delete_conversation ops st cid uid =
        .error (.valueError "Conversation not found or access denied") ∧
      get_conversation st cid uid =
        .error (.valueError "Conversation not found or access denied")) := by
  constructor
  · intro h
    refine ⟨?_, ?_, ?_⟩
    · unfold send_message
      rw [h]
    · unfold delete_conversation
      rw [h]
    · unfold get_conversation
      rw [h]
  · intro conv hconv hne
    have hu : (conv.user_id != uid) = true := by simpa using hne
    refine ⟨?_, ?_, ?_⟩
    · unfold send_message
      rw [hconv]
      simp only [hu, if_true]
    · unfold delete_conversation
      rw [hconv]
      simp only [hu, if_true]
    · unfold get_conversation
      rw [hconv]
      simp only [hu, if_true]

/-- Witness for C3 (amended) at concrete states: `c1` absent, and `c1` owned
by `B` while `A` calls. -/
theorem notfound_error_uniformity_witness :
    (wStEmpty.conversations.find? (fun c => c.id == "c1") = none ∧
      get_conversation wStEmpty "c1" "A" =
        .error (.valueError "Conversation not found")) ∧
    (wStB.conversations.find? (fun c => c.id == "c1") =
        some { wConvA with user_id := "B" } ∧
      ({ wConvA with user_id := "B" } : ConversationRec).user_id ≠ "A" ∧
      send_message wLLM wIndex wScore opsOk wStB "c1" "hi" "A" =
        .error (.valueError "Conversation not found or access denied")) := by
  constructor
  · exact ⟨by decide,
      ((notfound_error_uniformity wLLM wIndex wScore opsOk wStEmpty "c1" "hi"
        "A").1 (by decide)).2.2⟩
  · exact ⟨by decide, by decide,
      ((notfound_error_uniformity wLLM wIndex wScore opsOk wStB "c1" "hi"
        "A").2 { wConvA with user_id := "B" } (by decide) (by decide)).1⟩

theorem update_user_analytics_conversations (ops : AnalyticsOps)
    (st : ChatState) (uid action : String) :
    (update_user_analytics ops st uid action).conversations =
      st.conversations := by
  unfold update_user_analytics
  split
  · rfl
  · split
    · rfl
    · rfl

theorem update_user_analytics_messages (ops : AnalyticsOps) (st : ChatState)
    (uid action : String) :
    (update_user_analytics ops st uid action).messages = st.messages := by
  unfold update_user_analytics
  split
  · rfl
  · split
    · rfl
    · rfl

theorem update_user_analytics_clock (ops : AnalyticsOps) (st : ChatState)
    (uid action : String) :
    (update_user_analytics ops st uid action).clock = st.clock := by
  unfold update_user_analytics
  split
  · rfl
  · split
    · rfl
    · rfl

theorem update_user_analytics_core (ops : AnalyticsOps) (st : ChatState)
    (uid action : String) :
    (update_user_analytics ops st uid action).conversations = st.conversations ∧
    (update_user_analytics ops st uid action).messages = st.messages ∧
    (update_user_analytics ops st uid action).clock = st.clock :=
  ⟨update_user_analytics_conversations ops st uid action,
   update_user_analytics_messages ops st uid action,
   update_user_analytics_clock ops st uid action⟩

/-- C10.  `_update_user_analytics` cannot fail (every datastore exception is
swallowed) and never touches conversations, messages or the clock; hence
`start_conversation`, `send_message` and `delete_conversation` succeed and
persist exactly the same records whether the analytics datastore works or
fails in any way (the analytics counters are best-effort only). -/
theorem analytics_failures_are_harmless
    (ops ops2 : AnalyticsOps)
    (llm : String → String → List HistEntry → LLMResult)
    (index : List IndexedVector) (score : List Int → Int) (st : ChatState)
    (cid q uid action : String) (title : Option String) (newId : String) :
    ((update_user_analytics ops st uid action).conversations =
        st.conversations ∧
      (update_user_analytics ops st uid action).messages = st.messages ∧
      (update_user_analytics ops st uid action).clock = st.clock) ∧
    ((start_conversation ops st uid title newId).1.conversations =
        (start_conversation ops2 st uid title newId).1.conversations ∧
      (start_conversation ops st uid title newId).1.messages =
        (start_conversation ops2 st uid title newId).1.messages ∧
      (start_conversation ops st uid title newId).2 =
        (start_conversation ops2 st uid title newId).2) ∧
    ((send_message llm index score ops st cid q uid).map
        (fun p => (p.1.conversations, p.1.messages, p.1.clock, p.2)) =
      (send_message llm index score ops2 st cid q uid).map
        (fun p => (p.1.conversations, p.1.messages, p.1.clock, p.2))) ∧
    ((delete_conversation ops st cid uid).map
        (fun p => (p.1.conversations, p.1.messages, p.1.clock, p.2)) =
      (delete_conversation ops2 st cid uid).map
        (fun p => (p.1.conversations, p.1.messages, p.1.clock, p.2))) := by
  refine ⟨update_user_analytics_core ops st uid action, ⟨?_, ?_, rfl⟩, ?_, ?_⟩
  · unfold start_conversation
    simp only [update_user_analytics_conversations]
  · unfold start_conversation
    simp only [update_user_analytics_messages]
  · unfold send_message
    cases hc : st.conversations.find? (fun c => c.id == cid) with
    | none => rfl
    | some conv =>
      by_cases hu : (conv.user_id != uid) = true
      · simp only [hu, if_true]
      · simp only [hu, Bool.false_eq_true, if_false, Except.map,
          update_user_analytics_conversations, update_user_analytics_messages,
          update_user_analytics_clock]
  · unfold delete_conversation
    cases hc : st.conversations.find? (fun c => c.id == cid) with
    | none => rfl
    | some conv =>
      by_cases hu : (conv.user_id != uid) = true
      · simp only [hu, if_true]
      · simp only [hu, Bool.false_eq_true, if_false, Except.map,
          update_user_analytics_conversations, update_user_analytics_messages,
          update_user_analytics_clock]

theorem insertTsDesc_all_lt {x : MessageRec} :
    ∀ {l : List MessageRec}, (∀ y ∈ l, x.timestamp < y.timestamp) →
      insertTsDesc x l = l ++ [x]
  | [], _ => rfl
  | y :: ys, h => by
    unfold insertTsDesc
    rw [if_neg (Nat.not_le.mpr (h y (by simp)))]
    rw [insertTsDesc_all_lt (fun z hz => h z (by simp [hz]))]
    rfl

theorem sortTsDesc_of_pairwise :
    ∀ {l : List MessageRec},
      List.Pairwise (fun a b => a.timestamp < b.timestamp) l →
      sortTsDesc l = l.reverse
  | [], _ => rfl
  | x :: xs, h => by
    rcases List.pairwise_cons.mp h with ⟨hx, hxs⟩
    unfold sortTsDesc
    rw [sortTsDesc_of_pairwise hxs]
    rw [insertTsDesc_all_lt (fun y hy => hx y (List.mem_reverse.mp hy))]
    rw [List.reverse_cons]

/-- Counterexample for C6 as stated: in a conversation with zero prior
messages, the history `send_message` hands to the LLM is not the empty list
of prior messages — it contains the just-persisted user message (the probe
LLM reports one history entry), while the history of the messages persisted
prior to the turn is `[]`. -/
theorem send_history_contains_current_turn :
    get_conversation_history wStA.messages "c1" 10 = [] ∧
    send_history wStA.messages "c1" wUserMsg =
      [{ role := "user", content := "hi" }] ∧
    (send_message wLLMProbe wIndex wScore opsOk wStA "c1" "hi" "A").toOption.map
      (fun p => p.2.message) = some "1" ∧
    ("1" : String) ≠ "0" := by
  refine ⟨rfl, rfl, ?_, by decide⟩
  decide

/-- C6 (amended).  The history assembled inside `send_message` is the last
(at most) 10 messages of the conversation *including* the just-persisted
user message of the current turn, in chronological order; the current user
message is always its final entry. -/
theorem send_history_last_ten_including_current (msgs : List MessageRec)
    (cid : String) (u : MessageRec)
    (hu : u.conversation_id = cid)
    (hasc : List.Pairwise (fun a b => a.timestamp < b.timestamp)
      (msgs.filter (fun m => m.conversation_id == cid)))
    (hlt : ∀ m ∈ msgs.filter (fun m => m.conversation_id == cid),
      m.timestamp < u.timestamp) :
    send_history msgs cid u =
      (((msgs.filter (fun m => m.conversation_id == cid) ++ [u]).reverse.take
        10).reverse).map (fun m => { role := m.role, content := m.content }) ∧
    (send_history msgs cid u).getLast? =
      some { role := u.role, content := u.content } := by
  have hfu : (msgs ++ [u]).filter (fun m => m.conversation_id == cid) =
      msgs.filter (fun m => m.conversation_id == cid) ++ [u] := by
    rw [List.filter_append]
    simp [List.filter_cons, hu]
  have hpw : List.Pairwise (fun a b => a.timestamp < b.timestamp)
      (msgs.filter (fun m => m.conversation_id == cid) ++ [u]) := by
    rw [List.pairwise_append]
    refine ⟨hasc, List.pairwise_singleton _ _, ?_⟩
    intro a ha b hb
    rw [List.mem_singleton.mp hb]
    exact hlt a ha
  have hsort : sortTsDesc ((msgs ++ [u]).filter
      (fun m => m.conversation_id == cid)) =
      (msgs.filter (fun m => m.conversation_id == cid) ++ [u]).reverse := by
    rw [hfu]
    exact sortTsDesc_of_pairwise hpw
  have hmain : send_history msgs cid u =
      (((msgs.filter (fun m => m.conversation_id == cid) ++ [u]).reverse.take
        10).reverse).map (fun m => { role := m.role, content := m.content }) := by
    unfold send_history get_conversation_history
    show ((sortTsDesc ((msgs ++ [u]).filter
        (fun m => m.conversation_id == cid))).take 10).reverse.map
        (fun m => ({ role := m.role, content := m.content } : HistEntry)) = _
    rw [hsort]
  refine ⟨hmain, ?_⟩
  rw [hmain, List.reverse_append]
  simp [List.take_succ_cons, List.getLast?_concat]

/-- Witness for C6 (amended) at a concrete empty-history conversation. -/
theorem send_history_last_ten_witness :
    (wUserMsg.conversation_id = "c1" ∧
      List.Pairwise (fun a b => a.timestamp < b.timestamp)
        (([] : List MessageRec).filter (fun m => m.conversation_id == "c1")) ∧
      (∀ m ∈ ([] : List MessageRec).filter (fun m => m.conversation_id == "c1"),
        m.timestamp < wUserMsg.timestamp)) ∧
    send_history [] "c1" wUserMsg =
      ((((([] : List MessageRec).filter (fun m => m.conversation_id == "c1"))
        ++ [wUserMsg]).reverse.take 10).reverse).map
        (fun m => { role := m.role, content := m.content }) ∧
    (send_history [] "c1" wUserMsg).getLast? =
      some { role := wUserMsg.role, content := wUserMsg.content } := by
  refine ⟨⟨by decide, by decide, by decide⟩, ?_⟩
  exact send_history_last_ten_including_current [] "c1" wUserMsg (by decide)
    (by decide) (by decide)

theorem find?_replace_conv (c2 : ConversationRec) {l : List ConversationRec}
    {cid : String} {conv : ConversationRec}
    (h : l.find? (fun c => c.id == cid) = some conv) (hid : c2.id = conv.id) :
    (l.map (fun c => if c.id == conv.id then c2 else c)).find?
      (fun c => c.id == cid) = some c2 := by
  induction l with
  | nil => cases h
  | cons a t ih =>
    have hpc := List.find?_some h
    by_cases ha : (a.id == cid) = true
    · rw [List.find?_cons_of_pos t
        (show (fun c : ConversationRec => c.id == cid) a = true from ha)] at h
      have haconv : a = conv := by injection h
      subst haconv
      simp only [List.map_cons]
      rw [if_pos (by simp)]
      exact List.find?_cons_of_pos _
        (show (fun c : ConversationRec => c.id == cid) c2 = true from by
          show (c2.id == cid) = true
          rw [hid]
          exact hpc)
    · rw [List.find?_cons_of_neg t
        (show ¬(fun c : ConversationRec => c.id == cid) a = true from ha)] at h
      have hane : (a.id == conv.id) = false := by
        by_cases hx : (a.id == conv.id) = true
        · exfalso
          apply ha
          show (a.id == cid) = true
          rw [eq_of_beq hx]
          exact hpc
        · simpa using hx
      simp only [List.map_cons]
      rw [if_neg (by simp [hane])]
      rw [List.find?_cons_of_neg
        (List.map (fun c => if c.id == conv.id then c2 else c) t)
        (show ¬(fun c : ConversationRec => c.id == cid) a = true from ha)]
      exact ih h

theorem alt_roles_length (n : Nat) : (alt_roles n).length = 2 * n := by
  induction n with
  | zero => rfl
  | succ k ih =>
    unfold alt_roles
    rw [List.length_append, ih]
    simp
    omega

theorem send_message_step
    (llm : String → String → List HistEntry → LLMResult)
    (index : List IndexedVector) (score : List Int → Int) (ops : AnalyticsOps)
    (st : ChatState) (cid q uid : String) (n : Nat)
    (hinv : ConvTurnInv st cid uid n) :
    match send_message llm index score ops st cid q uid with
    | .error _ => False
    | .ok (st2, _) => ConvTurnInv st2 cid uid (n + 1) := by
  obtain ⟨hconv, hroles, hpw, hlt⟩ := hinv
  unfold send_message
  cases hfind : st.conversations.find? (fun c => c.id == cid) with
  | none =>
    rw [hfind] at hconv
    exact hconv
  | some conv =>
    rw [hfind] at hconv
    obtain ⟨huser, hcount⟩ := hconv
    dsimp only
    rw [if_neg (by simp [huser])]
    show ConvTurnInv _ cid uid (n + 1)
    have hmsg : ∀ (u a : MessageRec), u.conversation_id = cid →
        a.conversation_id = cid →
        (st.messages ++ [u] ++ [a]).filter
          (fun m => m.conversation_id == cid) =
        conv_messages st cid ++ [u, a] := by
      intro u a hu ha
      rw [List.filter_append, List.filter_append]
      simp [List.filter_cons, hu, ha, conv_messages]
    refine ⟨?_, ?_, ?_, ?_⟩
    · rw [update_user_analytics_conversations]
      rw [find?_replace_conv
        { conv with
          message_count := conv.message_count + 1
          last_message_at := st.clock + 1 + 1 + 1 + 1
          updated_at := st.clock + 1 + 1 + 1 + 1 + 1 } hfind rfl]
      exact ⟨huser, by rw [hcount]⟩
    · show ((update_user_analytics ops _ uid "message_sent").messages.filter
        (fun m => m.conversation_id == cid)).map (fun m => m.role) = _
      rw [update_user_analytics_messages]
      rw [hmsg _ _ rfl rfl]
      rw [List.map_append, hroles]
      rfl
    · show List.Pairwise _ ((update_user_analytics ops _ uid
        "message_sent").messages.filter (fun m => m.conversation_id == cid))
      rw [update_user_analytics_messages, hmsg _ _ rfl rfl]
      rw [List.pairwise_append]
      refine ⟨hpw, ?_, ?_⟩
      · rw [List.pairwise_cons]
        refine ⟨?_, List.pairwise_singleton _ _⟩
        intro b hb
        rw [List.mem_singleton.mp hb]
        show st.clock + 1 < st.clock + 1 + 1 + 1
        omega
      · intro x hx b hb
        have hxc := hlt x hx
        rcases List.mem_cons.mp hb with rfl | hb2
        · show x.timestamp < st.clock + 1
          omega
        · rw [List.mem_singleton.mp hb2]
          show x.timestamp < st.clock + 1 + 1 + 1
          omega
    · intro m hm
      rw [update_user_analytics_clock]
      show m.timestamp < st.clock + 1 + 1 + 1 + 1 + 1 + 1
      have hm2 : m ∈ (update_user_analytics ops _ uid
          "message_sent").messages.filter (fun x => x.conversation_id == cid) := hm
      rw [update_user_analytics_messages, hmsg _ _ rfl rfl] at hm2
      rcases List.mem_append.mp hm2 with hmA | hmN
      · have := hlt m hmA
        omega
      · rcases List.mem_cons.mp hmN with rfl | hmN2
        · show st.clock + 1 < st.clock + 1 + 1 + 1 + 1 + 1 + 1
          omega
        · rw [List.mem_singleton.mp hmN2]
          show st.clock + 1 + 1 + 1 < st.clock + 1 + 1 + 1 + 1 + 1 + 1
          omega

theorem send_turns_inv
    (llm : String → String → List HistEntry → LLMResult)
    (index : List IndexedVector) (score : List Int → Int) (ops : AnalyticsOps)
    (cid uid : String) :
    ∀ (qs : List String) (st : ChatState) (n : Nat),
      ConvTurnInv st cid uid n →
      match send_turns llm index score ops st cid uid qs with
      | .error _ => False
      | .ok stF => ConvTurnInv stF cid uid (n + qs.length) := by
  intro qs
  induction qs with
  | nil =>
    intro st n h
    simpa using h
  | cons q rest ih =>
    intro st n h
    have hstep := send_message_step llm index score ops st cid q uid n h
    cases hsend : send_message llm index score ops st cid q uid with
    | error e =>
      rw [hsend] at hstep
      exact hstep.elim
    | ok pair =>
      rw [hsend] at hstep
      unfold send_turns
      rw [hsend]
      have hrest := ih pair.1 (n + 1) hstep
      have harith : n + 1 + rest.length = n + (rest.length + 1) := by omega
      rw [harith] at hrest
      simpa using hrest

theorem start_conversation_inv (ops : AnalyticsOps) (st : ChatState)
    (uid : String) (title : Option String) (newId : String)
    (hfreshC : ∀ c ∈ st.conversations, c.id ≠ newId)
    (hfreshM : ∀ m ∈ st.messages, m.conversation_id ≠ newId) :
    ConvTurnInv (start_conversation ops st uid title newId).1 newId uid 0 := by
  have hnil : st.messages.filter (fun m => m.conversation_id == newId) = [] := by
    apply List.filter_eq_nil_iff.mpr
    intro m hm
    simpa using hfreshM m hm
  have hnone : st.conversations.find? (fun c => c.id == newId) = none := by
    apply List.find?_eq_none.mpr
    intro c hc
    simpa using hfreshC c hc
  unfold start_conversation
  refine ⟨?_, ?_, ?_, ?_⟩
  · show match ((update_user_analytics ops _ uid
        "conversation_created").conversations.find?
        (fun c => c.id == newId)) with
      | some conv => conv.user_id = uid ∧ conv.message_count = 0
      | none => False
    rw [update_user_analytics_conversations, List.find?_append, hnone]
    simp only [Option.none_or]
    rw [List.find?_cons_of_pos _ (by simp)]
    exact ⟨rfl, rfl⟩
  · show ((update_user_analytics ops _ uid
        "conversation_created").messages.filter
        (fun m => m.conversation_id == newId)).map (fun m => m.role) = _
    rw [update_user_analytics_messages]
    rw [hnil]
    rfl
  · show List.Pairwise _ ((update_user_analytics ops _ uid
        "conversation_created").messages.filter
        (fun m => m.conversation_id == newId))
    rw [update_user_analytics_messages, hnil]
    exact List.Pairwise.nil
  · intro m hm
    have hm2 : m ∈ (update_user_analytics ops _ uid
        "conversation_created").messages.filter
        (fun x => x.conversation_id == newId) := hm
    rw [update_user_analytics_messages, hnil] at hm2
    cases hm2

/-- Counterexample for C2 as stated: one successful `send()` on a fresh
conversation leaves `message_count = 1`, not `2·1` — the service increments
the counter once per turn, not once per persisted message. -/
theorem message_count_counts_turns_not_messages :
    (send_turns wLLM wIndex wScore opsOk wStA "c1" "A" ["hi"]).toOption.map
      (fun stF => (stF.conversations.find? (fun c => c.id == "c1")).map
        (fun c => c.message_count)) = some (some 1) ∧
    (1 : Nat) ≠ 2 * 1 := by
  exact ⟨by decide, by decide⟩

/-- C2 (amended).  Starting a fresh conversation and completing `N`
successful `send()` calls leaves `message_count = N` (one increment per
turn, not `2N`), while the persisted message list of the conversation has
`2N` entries whose roles alternate user/assistant starting with user and
whose timestamps strictly increase (so the insertion order is the timestamp
order). -/
theorem conversation_counter_and_alternation
    (llm : String → String → List HistEntry → LLMResult)
    (index : List IndexedVector) (score : List Int → Int)
    (ops ops0 : AnalyticsOps) (st : ChatState) (uid : String)
    (title : Option String) (newId : String) (qs : List String)
    (hfreshC : ∀ c ∈ st.conversations, c.id ≠ newId)
    (hfreshM : ∀ m ∈ st.messages, m.conversation_id ≠ newId) :
    match send_turns llm index score ops
        (start_conversation ops0 st uid title newId).1 newId uid qs with
    | .error _ => True
    | .ok stF =>
        (match stF.conversations.find? (fun c => c.id == newId) with
         | some conv => conv.message_count = qs.length
         | none => False) ∧
        (conv_messages stF newId).map (fun m => m.role) = alt_roles qs.length ∧
        (conv_messages stF newId).length = 2 * qs.length ∧
        List.Pairwise (fun a b => a.timestamp < b.timestamp)
          (conv_messages stF newId) := by
  have hinv0 := start_conversation_inv ops0 st uid title newId hfreshC hfreshM
  have hrun := send_turns_inv llm index score ops newId uid qs
    (start_conversation ops0 st uid title newId).1 0 hinv0
  cases hres : send_turns llm index score ops
      (start_conversation ops0 st uid title newId).1 newId uid qs with
  | error e => trivial
  | ok stF =>
    rw [hres] at hrun
    have hrun2 : ConvTurnInv stF newId uid qs.length := by
      have h0 : 0 + qs.length = qs.length := by omega
      rw [h0] at hrun
      exact hrun
    obtain ⟨hc, hr, hp, _⟩ := hrun2
    refine ⟨?_, hr, ?_, hp⟩
    · cases hfind2 : stF.conversations.find? (fun c => c.id == newId) with
      | none =>
        rw [hfind2] at hc
        exact hc
      | some conv =>
        rw [hfind2] at hc
        exact hc.2
    · have := congrArg List.length hr
      rw [List.length_map, alt_roles_length] at this
      exact this

/-- Witness for C2 (amended): a fresh conversation `c9` and two successful
turns, checked on the concrete run. -/
theorem conversation_counter_and_alternation_witness :
    (∀ c ∈ wStEmpty.conversations, c.id ≠ "c9") ∧
    (∀ m ∈ wStEmpty.messages, m.conversation_id ≠ "c9") ∧
    (match send_turns wLLM wIndex wScore opsOk
        (start_conversation opsOk wStEmpty "A" (some "t") "c9").1 "c9" "A"
        ["hi", "more"] with
     | .error _ => True
     | .ok stF =>
         (match stF.conversations.find? (fun c => c.id == "c9") with
          | some conv => conv.message_count = (["hi", "more"] : List String).length
          | none => False) ∧
         (conv_messages stF "c9").map (fun m => m.role) =
           alt_roles (["hi", "more"] : List String).length ∧
         (conv_messages stF "c9").length =
           2 * (["hi", "more"] : List String).length ∧
         List.Pairwise (fun a b => a.timestamp < b.timestamp)
           (conv_messages stF "c9")) := by
  refine ⟨by decide, by decide, ?_⟩
  exact conversation_counter_and_alternation wLLM wIndex wScore opsOk opsOk
    wStEmpty "A" (some "t") "c9" ["hi", "more"] (by decide) (by decide)

end RagChat
